import Mathlib

/-!
Verification development for the gtexporter core: shallow embeddings of the
passthrough buffer, the gNMI client monitor, the notification router, the
plugin orchestrator, the LLDP parser delete path, the counters pull policy
and the Prometheus exporter, each translated from the Go sources, together
with theorems settling the behavioural claims about them.

Conventions used throughout:
- Go maps that the code iterates or mutates are embedded as association
  lists kept in insertion order; map-key lookup is List.lookup.
- Wall-clock instants (time.Time) and durations are embedded as integers;
  time.Now is passed in explicitly as a parameter named now.
- uint64 counter and gauge values are embedded as Nat (the Go code only
  increments, compares and resets them, all of which are exact).
- A Go function returning error is embedded as returning Option String,
  none standing for the nil error.
-/

namespace GtExporter

/-! ## Notifications

A gnmi.Notification as the router and buffer see it: its timestamp, the
target field of its prefix, the schema path of its prefix as produced by
ygot.PathToSchemaPath, and the schema paths of its update and delete
entries (ygot.PathToSchemaPath strips bracketed keys). -/

structure GNotification where
  timestamp : Int
  target : String
  pfxSchema : String
  updatePaths : List String
  deletePaths : List String
deriving DecidableEq

/-! ## Passthrough buffer (src/pkg/plugins/ubuffer.go) -/

/-- Constant scrapeDelayMultiplier from ubuffer.go. -/
def scrapeDelayMultiplier : Int := 2

/-- The uBuffer struct from ubuffer.go. The Go slice buf is a list, the
scrapeInt duration and the deadline instant are integers. -/
structure UBuffer where
  buf : List GNotification
  scrapeInt : Int
  deadline : Int
  noScrape : Bool
deriving DecidableEq

/-- newBuf from ubuffer.go: empty buffer armed with a deadline of
now plus scrapeInt times scrapeDelayMultiplier. -/
def newBuf (now scrapeInt : Int) : UBuffer :=
  { buf := [], scrapeInt := scrapeInt,
    deadline := now + scrapeInt * scrapeDelayMultiplier, noScrape := false }

/-- uBuffer.clearBuffer: empties the buffer slice and nothing else. -/
def UBuffer.clearBuffer (b : UBuffer) : UBuffer := { b with buf := [] }

/-- uBuffer.add: discard while in noScrape state; an arrival strictly after
the deadline (time.Now().After) discards the notification, clears the
buffer and enters the noScrape state; otherwise append. -/
def UBuffer.add (b : UBuffer) (now : Int) (nf : GNotification) : UBuffer :=
  if b.noScrape then b
  else if b.deadline < now then { b.clearBuffer with noScrape := true }
  else { b with buf := b.buf ++ [nf] }

/-- The comparison handed to sort.Slice in uBuffer.checkout orders the
buffered notifications by ascending timestamp. -/
def tsLe (a b : GNotification) : Bool := a.timestamp ≤ b.timestamp

/-- uBuffer.checkout: returns the buffered notifications sorted by
ascending timestamp, empties the buffer, leaves the noScrape state and
re-arms the deadline at now plus scrapeInt times scrapeDelayMultiplier. -/
def UBuffer.checkout (b : UBuffer) (now : Int) : List GNotification × UBuffer :=
  (b.buf.mergeSort tsLe,
   { b with buf := [], noScrape := false,
            deadline := now + b.scrapeInt * scrapeDelayMultiplier })

/-! ## Client monitor (gnmiclient metrics: counters, gauges, srBufSize) -/

/-- Constant srBufferSize from gnmiclient.go: capacity of the receive
channel. -/
def srBufferSize : Nat := 128

/-- The cmCounters struct: per-device counters of the client monitor. -/
structure CmCounters where
  notifications : Nat
  updates : Nat
  deletes : Nat
  dialErrors : Nat
  checkCapsErrors : Nat
  subscribeErrors : Nat
  disconnections : Nat
  srRoutingErrors : Nat
deriving DecidableEq

/-- The cmGauges struct: the notification buffer usage gauge. -/
structure CmGauges where
  nfBufUsagePC : Nat
deriving DecidableEq

/-- The clientMon struct (mutex dropped: every method holds it for its
whole body, so the embedding is the sequential state transformer). -/
structure ClientMon where
  devName : String
  counters : CmCounters
  gauges : CmGauges
deriving DecidableEq

/-- clientMon.srBufSize: records peak usage. The Go expression
100 / srBufferSize * size is evaluated left to right in integer
arithmetic, exactly as written here. -/
def ClientMon.srBufSize (m : ClientMon) (size : Nat) : ClientMon :=
  let currValue := 100 / srBufferSize * size
  if currValue > m.gauges.nfBufUsagePC then
    { m with gauges := { nfBufUsagePC := currValue } }
  else m

/-- clientMon.incSrRoutingErrors. -/
def ClientMon.incSrRoutingErrors (m : ClientMon) : ClientMon :=
  { m with counters := { m.counters with srRoutingErrors := m.counters.srRoutingErrors + 1 } }

/-- clientMon.incNfCounters. -/
def ClientMon.incNfCounters (m : ClientMon) (upd del : Nat) : ClientMon :=
  { m with counters :=
      { m.counters with
        notifications := m.counters.notifications + 1,
        updates := m.counters.updates + upd,
        deletes := m.counters.deletes + del } }

/-- clientMon.GetMetrics: emits one sample per counter field and per gauge
field (value read through reflection, label from the struct tag), then
resets the buffer usage gauge to 0. The float64 conversion of a uint64
field value is embedded exactly by the Nat. -/
def ClientMon.getMetrics (m : ClientMon) : List (String × Nat) × ClientMon :=
  ([("gnmi_notifications", m.counters.notifications),
    ("gnmi_updates", m.counters.updates),
    ("gnmi_deletes", m.counters.deletes),
    ("dial_errors", m.counters.dialErrors),
    ("capabilities_errors", m.counters.checkCapsErrors),
    ("subscribe_errors", m.counters.subscribeErrors),
    ("disconnections", m.counters.disconnections),
    ("sr_routing_errors", m.counters.srRoutingErrors),
    ("notification_buf_usage_pc", m.gauges.nfBufUsagePC)],
   { m with gauges := { nfBufUsagePC := 0 } })

/-! ## Notification router and plugin registration
(src/pkg/gnmiclient/gnmiclient.go)

The GnmiClient keeps two Go maps: plugins (name to plugin) and xPaths
(subscribed path to plugin). Both are embedded as lists kept in insertion
order; the registered plugin object is identified by its registration
name, which is all routeSr ever selects by. -/

/-- strings.HasPrefix(s, pre) of the Go standard library: pre is a prefix
of s, tested on the character data of the two strings. -/
def goHasPfx (s pre : String) : Bool := pre.data.isPrefixOf s.data

structure GnmiClientState where
  plugins : List String
  xPaths : List (String × String)
deriving DecidableEq

/-- The inner loop of RegisterPlugin: for each requested path, reject it if
an already-present xPaths key is a string prefix of it
(strings.HasPrefix(reqPath, path)), otherwise insert it. On rejection the
paths inserted so far stay in the map, exactly as the Go code mutates
c.xPaths in place before returning the error. -/
def regPathsLoop (name : String) (xs : List (String × String)) :
    List String → List (String × String) × Option String
  | [] => (xs, none)
  | reqPath :: rest =>
    if xs.any (fun pr => goHasPfx reqPath pr.1) then
      (xs, some ("path " ++ reqPath ++ " is already registered"))
    else regPathsLoop name (xs ++ [(reqPath, name)]) rest

/-- GnmiClient.RegisterPlugin: rejects a duplicate plugin name and a nil
plugin, then runs the per-path duplicate check, and only on full success
adds the plugin under its name. -/
def GnmiClientState.registerPlugin (c : GnmiClientState) (name : String)
    (plugPaths : Option (List String)) : GnmiClientState × Option String :=
  if name ∈ c.plugins then (c, some ("plugin " ++ name ++ " already registered"))
  else
    match plugPaths with
    | none => (c, some "plugin parameter cannot be nil")
    | some paths =>
      match regPathsLoop name c.xPaths paths with
      | (xs, some e) => ({ c with xPaths := xs }, some e)
      | (xs, none) => ({ plugins := c.plugins ++ [name], xPaths := xs }, none)

/-- One routing decision: which plugins received the notification, whether
a sync was broadcast, and the client monitor counter deltas the call
produced. -/
structure RouteResult where
  syncBroadcast : Bool
  delivered : List String
  srErrDelta : Nat
  nfDelta : Nat
  updDelta : Nat
  delDelta : Nat
deriving DecidableEq

/-- The inner loop of routeSr over the xPaths map: first entry whose key is
a string prefix of the computed full path (strings.HasPrefix(fullPath,
xPath)) claims the notification. -/
def xPathFind (xs : List (String × String)) (fullPath : String) : Option String :=
  match xs with
  | [] => none
  | pr :: rest => if goHasPfx fullPath pr.1 then some pr.2 else xPathFind rest fullPath

/-- The outer loop of routeSr over the update (or delete) schema paths:
for each path in order, search the xPaths map for a match on the
concatenation of the prefix and the path. -/
def searchPaths (xs : List (String × String)) (pfx : String) :
    List String → Option String
  | [] => none
  | p :: rest =>
    match xPathFind xs (pfx ++ p) with
    | some plug => some plug
    | none => searchPaths xs pfx rest

/-- The prefix string routeSr computes: ygot.PathToSchemaPath of the
notification prefix, blanked when shorter than two characters. -/
def GNotification.routePfx (nf : GNotification) : String :=
  if nf.pfxSchema.length < 2 then "" else nf.pfxSchema

/-- The notification branch of routeSr: bump the notification counters,
then route by non-empty prefix target, else by first matching update path,
else by first matching delete path, else count one routing error and
drop. -/
def routeNotification (c : GnmiClientState) (nf : GNotification) : RouteResult :=
  let base : RouteResult :=
    { syncBroadcast := false, delivered := [], srErrDelta := 0,
      nfDelta := 1, updDelta := nf.updatePaths.length, delDelta := nf.deletePaths.length }
  if nf.target = "" then
    match searchPaths c.xPaths nf.routePfx nf.updatePaths with
    | some plug => { base with delivered := [plug] }
    | none =>
      match searchPaths c.xPaths nf.routePfx nf.deletePaths with
      | some plug => { base with delivered := [plug] }
      | none => { base with srErrDelta := 1 }
  else
    if nf.target ∈ c.plugins then { base with delivered := [nf.target] }
    else { base with srErrDelta := 1 }

/-- A gnmi.SubscribeResponse as routeSr consumes it: either a notification
(the update variant) or a sync-response flag. -/
inductive SubscribeResponse where
  | update (nf : GNotification)
  | syncResponse (b : Bool)

/-- GetUpdate() on a subscribe response that carries sync_response=false
returns a nil notification: empty target, a prefix whose schema path is
the bare slash, and no updates or deletes. -/
def emptyNotification : GNotification :=
  { timestamp := 0, target := "", pfxSchema := "/", updatePaths := [], deletePaths := [] }

/-- GnmiClient.routeSr: a sync_response=true message broadcasts
OnSync(true) to every plugin and returns; everything else is interpreted
as a notification. -/
def routeSr (c : GnmiClientState) (sr : SubscribeResponse) : RouteResult :=
  match sr with
  | .syncResponse true =>
    { syncBroadcast := true, delivered := [], srErrDelta := 0,
      nfDelta := 0, updDelta := 0, delDelta := 0 }
  | .syncResponse false => routeNotification c emptyNotification
  | .update nf => routeNotification c nf

/-! ## Parser monitor counters (src/pkg/plugins/parsermon.go) -/

/-- The pmCounters struct of a parser instance. -/
structure PmCounters where
  duplicates : Nat
  deleteNotFound : Nat
  containerNotFound : Nat
  leafNotFound : Nat
  invalidPath : Nat
deriving DecidableEq

/-- The all-zero parser monitor counters a fresh parser starts from. -/
def pmZero : PmCounters :=
  { duplicates := 0, deleteNotFound := 0, containerNotFound := 0,
    leafNotFound := 0, invalidPath := 0 }

/-! ## LLDP parser delete path (src/pkg/plugins/oclldp/oclldpparser.go)

The yGot LLDP model is the map interface-name to (map neighbor-id to
neighbor). removeDbEntry only ever tests key presence, deletes keys and
counts; neighbor leaf contents never influence it, so an interface entry
is embedded as the list of its neighbor-map keys. -/

structure LldpModel where
  interface : List (String × List String)
deriving DecidableEq

/-- The model ClearCache installs: a fresh root with defaults populated
and an empty Interface map. -/
def lldpFreshModel : LldpModel := { interface := [] }

/-- Lldp_Interface.DeleteNeighbor on the entry of ifName: removes the
neighbor-map key. -/
def LldpModel.deleteNeighbor (m : LldpModel) (ifName nbrId : String) : LldpModel :=
  { interface := m.interface.map (fun pr =>
      if pr.1 = ifName then (pr.1, pr.2.erase nbrId) else pr) }

/-- Lldp.DeleteInterface: removes the interface-map key. -/
def LldpModel.deleteInterface (m : LldpModel) (ifName : String) : LldpModel :=
  { interface := m.interface.filter (fun pr => pr.1 != ifName) }

/-- ocLldpParser.removeDbEntry after getPathMeta has resolved the delete
path to an interface name and a neighbor id: if the interface is present
delete the neighbor, otherwise count DeleteNotFound; then, if the whole
Interface map is empty, delete the interface entry. The emptiness test the
Go code performs really is on the Interface map (the map of interfaces),
not on the Neighbor map of the touched interface. -/
def lldpRemoveDbEntry (m : LldpModel) (cnt : PmCounters) (ifName nbrId : String) :
    LldpModel × PmCounters :=
  let step :=
    match m.interface.lookup ifName with
    | some _ => (m.deleteNeighbor ifName nbrId, cnt)
    | none => (m, { cnt with deleteNotFound := cnt.deleteNotFound + 1 })
  if step.1.interface = [] then (step.1.deleteInterface ifName, step.2)
  else step

/-! ## Plugin orchestrator sync handling (src/pkg/plugins/plugin.go)

The plugin owns a parser and the passthrough buffer. For OnSync the only
parser operation involved is ClearCache, which installs the fresh model,
so the parser state is embedded as the model value of type mu with the
fresh model passed alongside. -/

structure PluginState (μ : Type) where
  onSync : Bool
  model : μ
  buf : UBuffer

/-- Plugin.OnSync: on the true-to-false edge clear the parser model (via
ClearCache) and the buffer slice (via clearBuffer), then store the new
status. Every other call only stores the status. -/
def PluginState.onSyncEvent {μ : Type} (p : PluginState μ) (fresh : μ)
    (status : Bool) : PluginState μ :=
  let p1 :=
    if p.onSync && !status then
      { p with model := fresh, buf := p.buf.clearBuffer }
    else p
  { p1 with onSync := status }

/-! ## Counters pull policy (datamodels ysocif: GetCountersFromStruct)

GetCountersFromStruct reflects over the fields of the yang counters
container: each field carries a path tag naming the leaf and holds a
pointer to uint64, nil when the leaf is unset. The reflected view of the
container is the list of (path name, optional value) pairs, in field
order. -/

/-- The CntMode enumeration from the ysocif package. -/
inductive CntMode where
  | normal
  | useGoDefault
  | forceToZero
deriving DecidableEq

/-- One iteration of the GetCountersFromStruct field loop: last-clear is
skipped; UseGoDefault emits every field, unset read as zero; ForceToZero
zeroes every in- or out- prefixed field and applies the Normal policy to
the rest; Normal (the default case) emits only set fields. -/
def pullCounterField (mode : CntMode) (fld : String × Option Nat) :
    Option (String × Nat) :=
  if fld.1 = "last-clear" then none
  else
    match mode with
    | .useGoDefault => some (fld.1, fld.2.getD 0)
    | .forceToZero =>
      if goHasPfx fld.1 "in-" || goHasPfx fld.1 "out-" then some (fld.1, 0)
      else fld.2.map (fld.1, ·)
    | .normal => fld.2.map (fld.1, ·)

/-- GetCountersFromStruct: the counter map extracted from a counters
container, keyed by path tag. Each struct field contributes at most one
entry, so the map is the filterMap of the field list. -/
def GetCountersFromStruct (fields : List (String × Option Nat)) (mode : CntMode) :
    List (String × Nat) :=
  fields.filterMap (pullCounterField mode)

/-- The pull-mode selection of ocIfFormatter.ifCounters and subIfCounters:
Normal, overridden by UseGoDefault from the config, overridden by
ForceToZero whenever the interface name is in lagSet. -/
def pullModeFor (useGoDefaults : Bool) (lagSet : List String) (name : String) :
    CntMode :=
  let m := if useGoDefaults then CntMode.useGoDefault else CntMode.normal
  if name ∈ lagSet then CntMode.forceToZero else m

/-! ## Metric exporter (src/pkg/exporter/exporter.go, gmetric.go)

A user metric embeds MetricCommons and declares label-tagged string
fields; getLabelKeys and getLabelValues reflect those into ordered lists.
The embedding carries both lists explicitly. Sample values are float64 in
Go; no claim inspects more of them than equality with constants obtained
from exact conversions, so they are embedded as rationals. -/

/-- The MetricSourceEnum values. -/
inductive MetricSrc where
  | srcUnknown
  | srcGnmiClient
  | srcFormatter
  | srcParser
  | srcPlugin
deriving DecidableEq

/-- MetricSourceEnum.String. -/
def MetricSrc.toGoString : MetricSrc → String
  | .srcGnmiClient => "gclient"
  | .srcFormatter => "formatter"
  | .srcParser => "parser"
  | .srcPlugin => "plugin"
  | .srcUnknown => ""

/-- The prometheus.ValueType values the code uses. -/
inductive VType where
  | counter
  | gauge
  | untyped
deriving DecidableEq

/-- The MetricCommons struct. -/
structure MetricCommons where
  source : MetricSrc
  name : String
  help : String
  device : String
  vtype : VType
  value : Rat
deriving DecidableEq

/-- MetricCommons.validate: the returned error, none when valid. -/
def MetricCommons.validate (m : MetricCommons) : Option String :=
  if m.source = .srcUnknown then some "source is required"
  else if m.name = "" then some "name is required"
  else if m.device = "" then some "device is required"
  else none

/-- A user metric as the exporter sees it: its commons and the reflected
label keys and label values (getLabelKeys and getLabelValues over the
label-tagged fields, in field order). -/
structure GMetric where
  commons : MetricCommons
  labelKeys : List String
  labelValues : List String
deriving DecidableEq

/-- prometheus.BuildFQName of the external client library: joins the
non-empty ones among namespace, subsystem and name with underscores, and
returns the empty string when name is empty. -/
def promBuildFQName (ns sub nm : String) : String :=
  if nm = "" then ""
  else if ns ≠ "" ∧ sub ≠ "" then ns ++ "_" ++ sub ++ "_" ++ nm
  else if ns ≠ "" then ns ++ "_" ++ nm
  else if sub ≠ "" then sub ++ "_" ++ nm
  else nm

/-- buildFQName from gmetric.go: prefix, source tag, metric name, with a
suffix chosen by the value type. -/
def buildFQName (pfx : String) (mh : MetricCommons) : String :=
  let fqName := promBuildFQName pfx mh.source.toGoString mh.name
  match mh.vtype with
  | .counter => fqName ++ "_counters"
  | .gauge => fqName ++ "_gauges"
  | .untyped => fqName

/-- A prometheus descriptor as NewDesc records it: fully-qualified name,
help and the ordered label keys. -/
structure PromDesc where
  fqName : String
  help : String
  labelKeys : List String
deriving DecidableEq

/-- The promExporter state: configuration, descriptor map keyed by
fully-qualified name and the set of registered sources. -/
structure PromExporter where
  instanceName : String
  metricPrefix : String
  descriptors : List (String × PromDesc)
  metricSources : List String
deriving DecidableEq

/-- The descriptor-creation loop of registerSource: a nil metric or a
commons-validation failure aborts with that error, keeping the
descriptors created so far; a fully-qualified name already present is
skipped without any comparison; a fresh name gets a descriptor whose keys
are instance_name and device followed by the metric label keys. -/
def regMetricsLoop (pfx : String) (descs : List (String × PromDesc)) :
    List (Option GMetric) → List (String × PromDesc) × Option String
  | [] => (descs, none)
  | none :: _ => (descs, some "cannot register a nil metric")
  | some m :: rest =>
    match m.commons.validate with
    | some e => (descs, some e)
    | none =>
      if (descs.lookup (buildFQName pfx m.commons)).isSome then
        regMetricsLoop pfx descs rest
      else
        regMetricsLoop pfx
          (descs ++ [(buildFQName pfx m.commons,
                      { fqName := buildFQName pfx m.commons, help := m.commons.help,
                        labelKeys := "instance_name" :: "device" :: m.labelKeys })])
          rest

/-- promExporter.registerSource: rejects an empty metric list and a nil
source, then adds the source to the source set, then runs the descriptor
loop; an error from the loop is returned with the source already
registered and the partial descriptors kept. -/
def PromExporter.registerSource (p : PromExporter) (src : Option String)
    (metrics : List (Option GMetric)) : PromExporter × Option String :=
  if metrics.length = 0 then (p, some "no metrics provided")
  else
    match src with
    | none => (p, some "cannot register a nil source")
    | some s =>
      ({ p with
          metricSources :=
            if s ∈ p.metricSources then p.metricSources else p.metricSources ++ [s],
          descriptors := (regMetricsLoop p.metricPrefix p.descriptors metrics).1 },
       (regMetricsLoop p.metricPrefix p.descriptors metrics).2)

/-- A typed sample as prometheus.NewConstMetric builds it. -/
structure PromMetric where
  desc : PromDesc
  vtype : VType
  value : Rat
  labelValues : List String
deriving DecidableEq

/-- prometheus.NewConstMetric of the external client library: fails (and
the exporter then drops the sample) when the number of label values does
not match the number of label keys of the descriptor. -/
def newConstMetric (desc : PromDesc) (t : VType) (v : Rat) (lv : List String) :
    Option PromMetric :=
  if lv.length = desc.labelKeys.length then
    some { desc := desc, vtype := t, value := v, labelValues := lv }
  else none

/-- The per-sample body of the Collect gatherer goroutine: nil samples are
dropped, commons validation failures are dropped, an unresolved
fully-qualified name is dropped, then instance_name and device are
prepended to the label values and the typed sample is built; a
construction failure is dropped too. Every drop continues the loop. -/
def collectStep (p : PromExporter) (g : Option GMetric) : Option PromMetric :=
  match g with
  | none => none
  | some gm =>
    match gm.commons.validate with
    | some _ => none
    | none =>
      match p.descriptors.lookup (buildFQName p.metricPrefix gm.commons) with
      | none => none
      | some desc =>
        let lv := p.instanceName :: gm.commons.device :: gm.labelValues
        newConstMetric desc gm.commons.vtype gm.commons.value lv

/-- promExporter.Collect restricted to one scrape: the samples the
gatherer forwards downstream, in arrival order. -/
def PromExporter.collect (p : PromExporter) (samples : List (Option GMetric)) :
    List PromMetric :=
  samples.filterMap (collectStep p)

/-! ## Concrete fixtures used by witnesses and counterexamples -/

/-- A notification with timestamp 5 and nothing else set. -/
def nfT5 : GNotification :=
  { timestamp := 5, target := "", pfxSchema := "", updatePaths := [], deletePaths := [] }

/-- A notification with timestamp 3 and nothing else set. -/
def nfT3 : GNotification :=
  { timestamp := 3, target := "", pfxSchema := "", updatePaths := [], deletePaths := [] }

/-- An armed buffer holding two notifications out of timestamp order. -/
def bufArmed : UBuffer := { buf := [nfT5, nfT3], scrapeInt := 10, deadline := 100, noScrape := false }

/-- A synced plugin with a non-empty LLDP model and the armed buffer. -/
def plugT : PluginState LldpModel :=
  { onSync := true, model := { interface := [("eth0", ["n1"])] }, buf := bufArmed }

/-- Client state after registering plugin A on /a. -/
def stA : GnmiClientState :=
  (GnmiClientState.registerPlugin { plugins := [], xPaths := [] } "A" (some ["/a"])).1

/-- Client state after registering A on /a and then B on /b. -/
def stAB : GnmiClientState := (stA.registerPlugin "B" (some ["/b"])).1

/-- Client state after registering A on /a/b only. -/
def stRev : GnmiClientState :=
  (GnmiClientState.registerPlugin { plugins := [], xPaths := [] } "A" (some ["/a/b"])).1

/-- A target-less notification whose first update matches the path of B
and whose second update matches the path of A. -/
def nfCross : GNotification :=
  { timestamp := 0, target := "", pfxSchema := "", updatePaths := ["/b/x", "/a/y"],
    deletePaths := [] }

/-- A notification whose prefix target names plugin A. -/
def nfTgtA : GNotification :=
  { timestamp := 0, target := "A", pfxSchema := "", updatePaths := [], deletePaths := [] }

/-- An exporter fresh out of New. -/
def pEmpty : PromExporter :=
  { instanceName := "inst", metricPrefix := "px", descriptors := [], metricSources := [] }

/-- A valid metric spec with help h1 and one label key. -/
def gm1 : GMetric :=
  { commons := { source := .srcPlugin, name := "n", help := "h1", device := "dev",
                 vtype := .counter, value := 0 },
    labelKeys := ["a"], labelValues := ["va"] }

/-- A valid metric spec building the same fully-qualified name as gm1 but
with different help and different label keys. -/
def gm2 : GMetric :=
  { commons := { source := .srcPlugin, name := "n", help := "h2", device := "dev",
                 vtype := .counter, value := 0 },
    labelKeys := ["b", "c"], labelValues := ["vb", "vc"] }

/-- The exporter after source s1 registered gm1. -/
def pReg1 : PromExporter := (pEmpty.registerSource (some "s1") [some gm1]).1

/-- A small counters container: two set counters, a set last-clear, an
unset out- counter and an unset scalar. -/
def cntFlds : List (String × Option Nat) :=
  [("in-octets", some 5), ("carrier-transitions", some 7), ("last-clear", some 3),
   ("out-errors", none), ("resets", none)]

/-! ## Helper lemmas -/

/-- Lookup of a present key survives appending entries on the right. -/
theorem lookup_append_some {β : Type} (l l' : List (String × β)) (k : String) (v : β)
    (h : l.lookup k = some v) : (l ++ l').lookup k = some v := by
  induction l with
  | nil => simp [List.lookup] at h
  | cons a t ih =>
    obtain ⟨k', v'⟩ := a
    rw [List.cons_append]
    rw [List.lookup] at h ⊢
    cases hk : (k == k') with
    | true => rw [hk] at h; simpa [hk] using h
    | false => rw [hk] at h; simpa [hk] using ih h

/-- Appending a fresh key makes it found. -/
theorem lookup_append_fresh {β : Type} (l : List (String × β)) (k : String) (v : β)
    (h : l.lookup k = none) : (l ++ [(k, v)]).lookup k = some v := by
  induction l with
  | nil => simp [List.lookup]
  | cons a t ih =>
    obtain ⟨k', v'⟩ := a
    rw [List.lookup] at h
    rw [List.cons_append, List.lookup]
    cases hk : (k == k') with
    | true => rw [hk] at h; simp at h
    | false => rw [hk] at h; exact ih h

/-! ## C6: passthrough buffer state machine -/

/-- C6: the passthrough buffer is a two-state machine: an add during the
starved (noScrape) state is discarded outright; an add strictly after the
deadline discards the arriving notification, empties the buffer and enters
the starved state; an add at or before the deadline appends; checkout
returns a permutation of the buffered notifications sorted by ascending
timestamp, empties the buffer, leaves the starved state and re-arms the
deadline at now plus twice the scrape interval, after which a timely add
is accepted again. -/
theorem ubuffer_two_state_machine (b : UBuffer) (nf : GNotification) (now now2 : Int) :
    (b.noScrape = true → b.add now nf = b)
  ∧ (b.noScrape = false → b.deadline < now →
      (b.add now nf).buf = [] ∧ (b.add now nf).noScrape = true)
  ∧ (b.noScrape = false → now ≤ b.deadline →
      (b.add now nf).buf = b.buf ++ [nf] ∧ (b.add now nf).noScrape = false)
  ∧ (b.checkout now).1.Perm b.buf
  ∧ (b.checkout now).1.Pairwise (fun a c => a.timestamp ≤ c.timestamp)
  ∧ (b.checkout now).2.buf = []
  ∧ (b.checkout now).2.noScrape = false
  ∧ (b.checkout now).2.deadline = now + 2 * b.scrapeInt
  ∧ (now2 ≤ now + 2 * b.scrapeInt →
      (((b.checkout now).2).add now2 nf).buf = [nf]
      ∧ (((b.checkout now).2).add now2 nf).noScrape = false) := by
  refine ⟨?_, ?_, ?_, ?_, ?_, ?_, ?_, ?_, ?_⟩
  · intro h; simp [UBuffer.add, h]
  · intro h1 h2; simp [UBuffer.add, UBuffer.clearBuffer, h1, h2]
  · intro h1 h2; simp [UBuffer.add, h1, not_lt.mpr h2]
  · exact List.mergeSort_perm b.buf tsLe
  · have hs := @List.sorted_mergeSort _ tsLe
      (fun a c e hab hbc => by
        simp only [tsLe, decide_eq_true_eq] at *; omega)
      (fun a c => by simp only [tsLe, Bool.or_eq_true, decide_eq_true_eq]; omega)
      b.buf
    exact hs.imp (fun h => by simpa [tsLe] using h)
  · rfl
  · rfl
  · show now + b.scrapeInt * scrapeDelayMultiplier = now + 2 * b.scrapeInt
    simp [scrapeDelayMultiplier]; ring
  · intro h
    have hc : ¬ (now + b.scrapeInt * scrapeDelayMultiplier < now2) := by
      simp only [scrapeDelayMultiplier]; omega
    constructor
    · show (UBuffer.add _ now2 nf).buf = [nf]
      simp [UBuffer.add, UBuffer.checkout, UBuffer.clearBuffer, hc]
    · show (UBuffer.add _ now2 nf).noScrape = false
      simp [UBuffer.add, UBuffer.checkout, UBuffer.clearBuffer, hc]

/-- Witness for the buffer state machine at concrete inputs: a late add on
the armed buffer empties it and starves it, and checkout sorts the two
buffered notifications by ascending timestamp. -/
theorem ubuffer_two_state_machine_witness :
    (bufArmed.add 200 nfT5).buf = [] ∧ (bufArmed.add 200 nfT5).noScrape = true
    ∧ (bufArmed.checkout 50).1.Perm bufArmed.buf
    ∧ (bufArmed.checkout 50).2.deadline = 50 + 2 * bufArmed.scrapeInt := by
  have h := ubuffer_two_state_machine bufArmed nfT5 200 0
  have h50 := ubuffer_two_state_machine bufArmed nfT5 50 0
  exact ⟨(h.2.1 rfl (by decide)).1, (h.2.1 rfl (by decide)).2,
         h50.2.2.2.1, h50.2.2.2.2.2.2.2.1⟩

/-! ## C8: OnSync edge behaviour -/

/-- C8: OnSync always stores the new status; on a call with status false
while the stored flag is true it additionally installs the fresh parser
model and empties the buffer slice (leaving the buffer deadline, interval
and starvation flag untouched); every other call leaves the parser model
and the buffer entirely unchanged. -/
theorem plugin_onsync_edge {μ : Type} (fresh : μ) (p : PluginState μ) (status : Bool) :
    ((p.onSyncEvent fresh status).onSync = status)
  ∧ (p.onSync = true → status = false →
      (p.onSyncEvent fresh status).model = fresh
      ∧ (p.onSyncEvent fresh status).buf.buf = []
      ∧ (p.onSyncEvent fresh status).buf.deadline = p.buf.deadline
      ∧ (p.onSyncEvent fresh status).buf.scrapeInt = p.buf.scrapeInt
      ∧ (p.onSyncEvent fresh status).buf.noScrape = p.buf.noScrape)
  ∧ ((p.onSync = false ∨ status = true) →
      (p.onSyncEvent fresh status).model = p.model
      ∧ (p.onSyncEvent fresh status).buf = p.buf) := by
  refine ⟨?_, ?_, ?_⟩
  · cases hp : p.onSync <;> cases hs : status <;>
      simp [PluginState.onSyncEvent, hp, hs]
  · intro h1 h2
    simp [PluginState.onSyncEvent, h1, h2, UBuffer.clearBuffer]
  · intro h
    rcases h with h | h
    · simp [PluginState.onSyncEvent, h]
    · cases hp : p.onSync <;> simp [PluginState.onSyncEvent, h, hp]

/-- Witness for the OnSync edge at concrete inputs: the true-to-false edge
on the synced plugin clears the LLDP model and the buffer, and a
true-to-true call leaves both alone. -/
theorem plugin_onsync_edge_witness :
    (plugT.onSyncEvent lldpFreshModel false).model = lldpFreshModel
    ∧ (plugT.onSyncEvent lldpFreshModel false).buf.buf = []
    ∧ (plugT.onSyncEvent lldpFreshModel true).model = plugT.model
    ∧ (plugT.onSyncEvent lldpFreshModel true).buf = plugT.buf := by
  have h1 := plugin_onsync_edge lldpFreshModel plugT false
  have h2 := plugin_onsync_edge lldpFreshModel plugT true
  exact ⟨(h1.2.1 rfl rfl).1, (h1.2.1 rfl rfl).2.1,
         (h2.2.2 (Or.inr rfl)).1, (h2.2.2 (Or.inr rfl)).2⟩

/-! ## C3: the receive-channel usage gauge -/

/-- C3 (code bug): clientMon.srBufSize computes 100 / srBufferSize * size
in integer arithmetic, which is 0 for every size, so observing channel
lengths never changes the monitor at all and the gauge emitted by
GetMetrics after any sequence of observations from the post-reset state is
0 - never the peak percent fullness max(size)*100/128 the claim states,
which is 50 for a half-full channel of length 64. -/
theorem srbufsize_gauge_always_zero :
    (∀ (m : ClientMon) (size : Nat), m.srBufSize size = m)
  ∧ (∀ (m : ClientMon) (sizes : List Nat), sizes.foldl ClientMon.srBufSize m = m)
  ∧ (∀ (devName : String) (cnt : CmCounters) (sizes : List Nat),
      ("notification_buf_usage_pc", 0) ∈
        ((sizes.foldl ClientMon.srBufSize
          { devName := devName, counters := cnt, gauges := { nfBufUsagePC := 0 } }).getMetrics).1)
  ∧ 64 * 100 / srBufferSize = 50 := by
  have hfix : ∀ (m : ClientMon) (size : Nat), m.srBufSize size = m := by
    intro m size
    simp [ClientMon.srBufSize, srBufferSize]
  have hfold : ∀ (sizes : List Nat) (m : ClientMon),
      sizes.foldl ClientMon.srBufSize m = m := by
    intro sizes
    induction sizes with
    | nil => intro m; rfl
    | cons s t ih => intro m; rw [List.foldl_cons, hfix]; exact ih m
  refine ⟨hfix, fun m sizes => hfold sizes m, ?_, by decide⟩
  intro devName cnt sizes
  rw [hfold]
  simp [ClientMon.getMetrics]

/-! ## C9: LLDP delete of the last neighbor -/

/-- C9 (code bug): removeDbEntry deletes the resolved neighbor when the
interface is present and counts delete-path-not-found when it is absent,
but the subsequent emptiness test is on the whole Interface map rather
than on the neighbor map of the touched interface, so deleting the last
neighbor of eth0 leaves eth0 in the model with an empty neighbor map
instead of deleting it as the claim states. -/
theorem lldp_remove_entry_eval :
    ((lldpRemoveDbEntry { interface := [("eth0", ["nb1", "nb2"])] } pmZero "eth0" "nb1").1.interface
        = [("eth0", ["nb2"])])
  ∧ ((lldpRemoveDbEntry { interface := [("eth0", ["nb1", "nb2"])] } pmZero "eth0" "nb1").2 = pmZero)
  ∧ ((lldpRemoveDbEntry { interface := [("if1", ["n1"])] } pmZero "eth9" "n1").2.deleteNotFound = 1)
  ∧ ((lldpRemoveDbEntry { interface := [("if1", ["n1"])] } pmZero "eth9" "n1").1.interface
        = [("if1", ["n1"])])
  ∧ ((lldpRemoveDbEntry { interface := [("eth0", ["nb1"])] } pmZero "eth0" "nb1").1.interface
        = [("eth0", [])]) := by
  refine ⟨?_, ?_, ?_, ?_, ?_⟩ <;> decide

/-! ## C5: the ForceToZero pull policy -/

/-- The ForceToZero branch structure of the field loop, spelled out. -/
theorem pullField_ftz (nm : String) (ov : Option Nat) :
    pullCounterField .forceToZero (nm, ov) =
      if nm = "last-clear" then none
      else if (goHasPfx nm "in-" || goHasPfx nm "out-") = true then some (nm, 0)
      else ov.map ((nm, ·)) := rfl

/-- C5: in ForceToZero mode (the mode ifCounters selects for every
interface in lag_set), the counter map zeroes exactly the in- and out-
prefixed fields (present whether or not the leaf is set), carries every
other field with its own value exactly when the leaf is set (the Normal
policy), and never contains last-clear. -/
theorem forceToZero_policy (fields : List (String × Option Nat)) :
    (∀ nm v, (nm, v) ∈ GetCountersFromStruct fields .forceToZero →
        (goHasPfx nm "in-" = true ∨ goHasPfx nm "out-" = true) → v = 0)
  ∧ (∀ nm ov, (nm, ov) ∈ fields →
        (goHasPfx nm "in-" = true ∨ goHasPfx nm "out-" = true) →
        (nm, 0) ∈ GetCountersFromStruct fields .forceToZero)
  ∧ (∀ nm v, (nm, v) ∈ GetCountersFromStruct fields .forceToZero →
        goHasPfx nm "in-" = false → goHasPfx nm "out-" = false →
        (nm, some v) ∈ fields)
  ∧ (∀ nm v, (nm, some v) ∈ fields → nm ≠ "last-clear" →
        goHasPfx nm "in-" = false → goHasPfx nm "out-" = false →
        (nm, v) ∈ GetCountersFromStruct fields .forceToZero)
  ∧ (∀ v, ("last-clear", v) ∉ GetCountersFromStruct fields .forceToZero)
  ∧ (∀ (ugd : Bool) (lagSet : List String) (nm : String), nm ∈ lagSet →
        pullModeFor ugd lagSet nm = .forceToZero) := by
  refine ⟨?_, ?_, ?_, ?_, ?_, ?_⟩
  · intro nm v h hpre
    rw [GetCountersFromStruct, List.mem_filterMap] at h
    obtain ⟨⟨nm', ov⟩, hmem, heq⟩ := h
    rw [pullField_ftz] at heq
    by_cases h1 : nm' = "last-clear"
    · rw [if_pos h1] at heq; exact Option.noConfusion heq
    rw [if_neg h1] at heq
    by_cases h2 : (goHasPfx nm' "in-" || goHasPfx nm' "out-") = true
    · rw [if_pos h2] at heq
      have hp := Option.some.inj heq
      simp only [Prod.mk.injEq] at hp
      exact hp.2.symm
    rw [if_neg h2] at heq
    cases ov with
    | none => exact Option.noConfusion heq
    | some w =>
      have hp := Option.some.inj heq
      simp only [Prod.mk.injEq] at hp
      obtain ⟨rfl, rfl⟩ := hp
      rcases hpre with h | h <;> simp [h] at h2
  · intro nm ov hmem hpre
    rw [GetCountersFromStruct, List.mem_filterMap]
    refine ⟨(nm, ov), hmem, ?_⟩
    have hlc : nm ≠ "last-clear" := by
      rintro rfl
      rcases hpre with h | h <;> exact absurd h (by decide)
    have hor : (goHasPfx nm "in-" || goHasPfx nm "out-") = true := by
      rcases hpre with h | h <;> simp [h]
    rw [pullField_ftz, if_neg hlc, if_pos hor]
  · intro nm v h hin hout
    rw [GetCountersFromStruct, List.mem_filterMap] at h
    obtain ⟨⟨nm', ov⟩, hmem, heq⟩ := h
    rw [pullField_ftz] at heq
    by_cases h1 : nm' = "last-clear"
    · rw [if_pos h1] at heq; exact Option.noConfusion heq
    rw [if_neg h1] at heq
    by_cases h2 : (goHasPfx nm' "in-" || goHasPfx nm' "out-") = true
    · rw [if_pos h2] at heq
      have hp := Option.some.inj heq
      simp only [Prod.mk.injEq] at hp
      obtain ⟨rfl, _⟩ := hp
      simp [hin, hout] at h2
    rw [if_neg h2] at heq
    cases ov with
    | none => exact Option.noConfusion heq
    | some w =>
      have hp := Option.some.inj heq
      simp only [Prod.mk.injEq] at hp
      obtain ⟨rfl, rfl⟩ := hp
      exact hmem
  · intro nm v hmem hlc hin hout
    rw [GetCountersFromStruct, List.mem_filterMap]
    refine ⟨(nm, some v), hmem, ?_⟩
    rw [pullField_ftz, if_neg hlc, if_neg (by simp [hin, hout])]
    rfl
  · intro v h
    rw [GetCountersFromStruct, List.mem_filterMap] at h
    obtain ⟨⟨nm', ov⟩, hmem, heq⟩ := h
    rw [pullField_ftz] at heq
    by_cases h1 : nm' = "last-clear"
    · rw [if_pos h1] at heq; exact Option.noConfusion heq
    rw [if_neg h1] at heq
    by_cases h2 : (goHasPfx nm' "in-" || goHasPfx nm' "out-") = true
    · rw [if_pos h2] at heq
      have hp := Option.some.inj heq
      simp only [Prod.mk.injEq] at hp
      exact h1 hp.1
    rw [if_neg h2] at heq
    cases ov with
    | none => exact Option.noConfusion heq
    | some w =>
      have hp := Option.some.inj heq
      simp only [Prod.mk.injEq] at hp
      exact h1 hp.1
  · intro ugd lagSet nm h
    simp [pullModeFor, h]

/-- Witness for the ForceToZero policy on the concrete small container:
the set in-octets counter is zeroed, the set carrier-transitions scalar
keeps its value, the unset out-errors counter is still forced to appear as
zero, and a LAG name in lag_set selects ForceToZero. -/
theorem forceToZero_policy_witness :
    ("in-octets", 0) ∈ GetCountersFromStruct cntFlds .forceToZero
    ∧ ("carrier-transitions", 7) ∈ GetCountersFromStruct cntFlds .forceToZero
    ∧ ("out-errors", 0) ∈ GetCountersFromStruct cntFlds .forceToZero
    ∧ pullModeFor false ["ae0"] "ae0" = .forceToZero := by
  have h := forceToZero_policy cntFlds
  refine ⟨?_, ?_, ?_, h.2.2.2.2.2 false ["ae0"] "ae0" (by decide)⟩
  · exact h.2.1 "in-octets" (some 5) (by decide) (Or.inl (by decide))
  · exact h.2.2.2.1 "carrier-transitions" 7 (by decide) (by decide) (by decide) (by decide)
  · exact h.2.1 "out-errors" none (by decide) (Or.inr (by decide))

/-! ## Router helper lemmas -/

/-- A match returned by the xPaths scan really is a registered entry whose
key is a string prefix of the scanned full path. -/
theorem xPathFind_sound (xs : List (String × String)) (fullPath p : String)
    (h : xPathFind xs fullPath = some p) :
    ∃ pr ∈ xs, pr.2 = p ∧ goHasPfx fullPath pr.1 = true := by
  induction xs with
  | nil => exact Option.noConfusion h
  | cons a t ih =>
    rw [xPathFind] at h
    by_cases ha : goHasPfx fullPath a.1 = true
    · rw [if_pos ha] at h
      exact ⟨a, List.mem_cons_self .., Option.some.inj h, ha⟩
    · rw [if_neg ha] at h
      obtain ⟨pr, hm, he, hp⟩ := ih h
      exact ⟨pr, List.mem_cons_of_mem _ hm, he, hp⟩

/-- When no registered path is a prefix of the full path the scan finds
nothing. -/
theorem xPathFind_none (xs : List (String × String)) (fullPath : String)
    (h : ∀ pr ∈ xs, goHasPfx fullPath pr.1 = false) :
    xPathFind xs fullPath = none := by
  induction xs with
  | nil => rfl
  | cons a t ih =>
    rw [xPathFind]
    rw [if_neg (by simp [h a (List.mem_cons_self ..)])]
    exact ih (fun pr hm => h pr (List.mem_cons_of_mem _ hm))

/-- A plugin returned by the path search owns a registered path matching
the prefixed form of one of the searched paths. -/
theorem searchPaths_sound (xs : List (String × String)) (pfx : String)
    (paths : List String) (p : String)
    (h : searchPaths xs pfx paths = some p) :
    ∃ u ∈ paths, ∃ pr ∈ xs, pr.2 = p ∧ goHasPfx (pfx ++ u) pr.1 = true := by
  induction paths with
  | nil => exact Option.noConfusion h
  | cons u t ih =>
    rw [searchPaths] at h
    cases hf : xPathFind xs (pfx ++ u) with
    | some q =>
      rw [hf] at h
      obtain ⟨pr, hm, he, hp⟩ := xPathFind_sound xs (pfx ++ u) q hf
      exact ⟨u, List.mem_cons_self .., pr, hm, (Option.some.inj h) ▸ he, hp⟩
    | none =>
      rw [hf] at h
      obtain ⟨w, hw, hrest⟩ := ih h
      exact ⟨w, List.mem_cons_of_mem _ hw, hrest⟩

/-- When no registered path matches any searched path the search finds
nothing. -/
theorem searchPaths_none (xs : List (String × String)) (pfx : String)
    (paths : List String)
    (h : ∀ u ∈ paths, ∀ pr ∈ xs, goHasPfx (pfx ++ u) pr.1 = false) :
    searchPaths xs pfx paths = none := by
  induction paths with
  | nil => rfl
  | cons u t ih =>
    rw [searchPaths]
    rw [xPathFind_none xs (pfx ++ u) (h u (List.mem_cons_self ..))]
    exact ih (fun w hw pr hm => h w (List.mem_cons_of_mem _ hw) pr hm)

/-! ## C1: routing determinism -/

/-- C1 (counterexample to the delivery-order clause): with A registered
first on /a and B second on /b, a target-less notification whose updates
are /b/x then /a/y is delivered to B, although A is the first registered
plugin whose subscription path (/a) is a string prefix of some update's
full schema path (/a/y); the scan is update-major, not
registration-major. -/
theorem routeSr_not_plugin_major :
    (routeSr stAB (.update nfCross)).delivered = ["B"]
  ∧ stAB.plugins = ["A", "B"]
  ∧ ("/a", "A") ∈ stAB.xPaths
  ∧ goHasPfx (nfCross.routePfx ++ "/a/y") "/a" = true
  ∧ "/a/y" ∈ nfCross.updatePaths
  ∧ ("A" = "B") = False := by
  refine ⟨by decide, by decide, by decide, by decide, by decide, by simp⟩

/-- C1 (amended): the router delivers a notification to at most one
plugin, and drops it with exactly one sr-routing-errors increment
otherwise; a non-empty prefix target selects exactly the plugin of that
name; with an empty target the delivered plugin always owns a registered
path that is a string prefix of the prefixed schema path of some update
or delete, the first match in update-major order wins, and when nothing
matches the notification is dropped with exactly one sr-routing-errors
increment and no delivery. -/
theorem routeSr_delivery (c : GnmiClientState) (nf : GNotification) :
    ((∃ p, (routeSr c (.update nf)).delivered = [p]) ∧ (routeSr c (.update nf)).srErrDelta = 0
      ∨ (routeSr c (.update nf)).delivered = [] ∧ (routeSr c (.update nf)).srErrDelta = 1)
  ∧ (nf.target ≠ "" → nf.target ∈ c.plugins →
      (routeSr c (.update nf)).delivered = [nf.target]
      ∧ (routeSr c (.update nf)).srErrDelta = 0)
  ∧ (nf.target ≠ "" → nf.target ∉ c.plugins →
      (routeSr c (.update nf)).delivered = []
      ∧ (routeSr c (.update nf)).srErrDelta = 1)
  ∧ (nf.target = "" → ∀ p ∈ (routeSr c (.update nf)).delivered,
      ∃ pr ∈ c.xPaths, pr.2 = p ∧
        ∃ u ∈ nf.updatePaths ++ nf.deletePaths,
          goHasPfx (nf.routePfx ++ u) pr.1 = true)
  ∧ (nf.target = "" →
      (∀ u ∈ nf.updatePaths ++ nf.deletePaths, ∀ pr ∈ c.xPaths,
        goHasPfx (nf.routePfx ++ u) pr.1 = false) →
      (routeSr c (.update nf)).delivered = []
      ∧ (routeSr c (.update nf)).srErrDelta = 1)
  ∧ (nf.target = "" → ∀ p, searchPaths c.xPaths nf.routePfx nf.updatePaths = some p →
      (routeSr c (.update nf)).delivered = [p]) := by
  show _ ∧ _
  by_cases ht : nf.target = ""
  · refine ⟨?_, fun h => absurd ht h, fun h => absurd ht h, ?_, ?_, ?_⟩
    all_goals
      simp only [routeSr, routeNotification, if_pos ht]
    · cases hu : searchPaths c.xPaths nf.routePfx nf.updatePaths with
      | some p => exact Or.inl ⟨⟨p, rfl⟩, rfl⟩
      | none =>
        cases hd : searchPaths c.xPaths nf.routePfx nf.deletePaths with
        | some p => exact Or.inl ⟨⟨p, rfl⟩, rfl⟩
        | none => exact Or.inr ⟨rfl, rfl⟩
    · intro _ p hp
      cases hu : searchPaths c.xPaths nf.routePfx nf.updatePaths with
      | some q =>
        rw [hu] at hp
        have hq : p ∈ [q] := hp
        simp only [List.mem_singleton] at hq
        subst hq
        obtain ⟨u, hu1, pr, hpr, he, hpre⟩ := searchPaths_sound _ _ _ _ hu
        exact ⟨pr, hpr, he, u, List.mem_append_left _ hu1, hpre⟩
      | none =>
        rw [hu] at hp
        cases hd : searchPaths c.xPaths nf.routePfx nf.deletePaths with
        | some q =>
          rw [hd] at hp
          have hq : p ∈ [q] := hp
          simp only [List.mem_singleton] at hq
          subst hq
          obtain ⟨u, hu1, pr, hpr, he, hpre⟩ := searchPaths_sound _ _ _ _ hd
          exact ⟨pr, hpr, he, u, List.mem_append_right _ hu1, hpre⟩
        | none =>
          rw [hd] at hp
          exact absurd (show p ∈ ([] : List String) from hp) (List.not_mem_nil p)
    · intro _ hnone
      rw [searchPaths_none _ _ _
            (fun u hu pr hm => hnone u (List.mem_append_left _ hu) pr hm),
          searchPaths_none _ _ _
            (fun u hu pr hm => hnone u (List.mem_append_right _ hu) pr hm)]
      exact ⟨rfl, rfl⟩
    · intro _ p hp
      rw [hp]
  · refine ⟨?_, ?_, ?_, fun h => absurd h ht, fun h => absurd h ht, fun h => absurd h ht⟩
    all_goals
      simp only [routeSr, routeNotification, if_neg ht]
    · by_cases hm : nf.target ∈ c.plugins
      · rw [if_pos hm]; exact Or.inl ⟨⟨nf.target, rfl⟩, rfl⟩
      · rw [if_neg hm]; exact Or.inr ⟨rfl, rfl⟩
    · intro _ hm; rw [if_pos hm]; exact ⟨rfl, rfl⟩
    · intro _ hm; rw [if_neg hm]; exact ⟨rfl, rfl⟩

/-- Witness for the amended routing theorem at concrete inputs: the
targeted notification reaches exactly plugin A, and the cross notification
is delivered to the winner of the update-major scan. -/
theorem routeSr_delivery_witness :
    ((routeSr stA (.update nfTgtA)).delivered = ["A"]
      ∧ (routeSr stA (.update nfTgtA)).srErrDelta = 0)
    ∧ (routeSr stAB (.update nfCross)).delivered = ["B"] := by
  have h1 := routeSr_delivery stA nfTgtA
  have h2 := routeSr_delivery stAB nfCross
  exact ⟨h1.2.1 (by decide) (by decide), h2.2.2.2.2.2 (by decide) "B" (by decide)⟩

/-! ## C2: registration-time duplicate-path protection -/

/-- C2 (counterexample to the either-direction clause): with A registered
on /a/b, registering B on /a succeeds although /a is a string prefix of
the already-registered /a/b; RegisterPlugin only rejects the direction in
which an existing path is a prefix of the new one. -/
theorem registerPlugin_reverse_direction_accepted :
    ((stRev.registerPlugin "B" (some ["/a"])).2 = none)
  ∧ "B" ∈ (stRev.registerPlugin "B" (some ["/a"])).1.plugins
  ∧ ("/a/b", "A") ∈ stRev.xPaths
  ∧ goHasPfx "/a/b" "/a" = true := by
  refine ⟨by decide, by decide, by decide, by decide⟩

/-- The path-registration loop rejects the whole call whenever a requested
path extends a path already in the map, however far into the list the
offending request sits. -/
theorem regPathsLoop_err (name : String) (paths : List String) :
    ∀ xs : List (String × String),
      (∃ req ∈ paths, ∃ pr ∈ xs, goHasPfx req pr.1 = true) →
      ((regPathsLoop name xs paths).2).isSome = true := by
  induction paths with
  | nil => rintro xs ⟨req, hreq, _⟩; exact absurd hreq (List.not_mem_nil req)
  | cons q t ih =>
    rintro xs ⟨req, hreq, pr, hpr, hpre⟩
    rw [regPathsLoop]
    by_cases hany : xs.any (fun pr => goHasPfx q pr.1) = true
    · rw [if_pos hany]; rfl
    rw [if_neg hany]
    rcases List.mem_cons.mp hreq with rfl | hmem
    · exact absurd (List.any_eq_true.mpr ⟨pr, hpr, hpre⟩) hany
    · exact ih (xs ++ [(q, name)]) ⟨req, hmem, pr, List.mem_append_left _ hpr, hpre⟩

/-- C2 (amended): RegisterPlugin fails, and leaves the plugin map
unchanged, whenever some path of the new plugin has an already-registered
subscription path as a string prefix (equality included); the reverse
direction, a new path that is a strict prefix of an existing one, is not
rejected. -/
theorem registerPlugin_rejects_extension (c : GnmiClientState) (name : String)
    (paths : List String)
    (h : ∃ req ∈ paths, ∃ pr ∈ c.xPaths, goHasPfx req pr.1 = true) :
    ((c.registerPlugin name (some paths)).2).isSome = true
    ∧ (c.registerPlugin name (some paths)).1.plugins = c.plugins := by
  rw [GnmiClientState.registerPlugin]
  by_cases hn : name ∈ c.plugins
  · rw [if_pos hn]; exact ⟨rfl, rfl⟩
  rw [if_neg hn]
  have herr := regPathsLoop_err name paths c.xPaths h
  cases hres : regPathsLoop name c.xPaths paths with
  | mk fst snd =>
    cases snd with
    | none => rw [hres] at herr; exact Bool.noConfusion herr
    | some e => exact ⟨rfl, rfl⟩

/-- Witness for the amended registration theorem at concrete inputs:
with A registered on /a, registering C on the extending path /a/x fails
and adds no plugin. -/
theorem registerPlugin_rejects_extension_witness :
    (((stA.registerPlugin "C" (some ["/a/x"])).2).isSome = true)
    ∧ (stA.registerPlugin "C" (some ["/a/x"])).1.plugins = stA.plugins := by
  exact registerPlugin_rejects_extension stA "C" ["/a/x"]
    ⟨"/a/x", by decide, ("/a", "A"), by decide, by decide⟩

/-! ## Exporter helper lemmas -/

/-- The descriptor loop never removes an existing descriptor, whatever
else it does. -/
theorem regMetricsLoop_mono (pfx : String) (ms : List (Option GMetric)) :
    ∀ (descs : List (String × PromDesc)) (fq : String) (d : PromDesc),
      descs.lookup fq = some d →
      ((regMetricsLoop pfx descs ms).1).lookup fq = some d := by
  induction ms with
  | nil => intro descs fq d h; exact h
  | cons m t ih =>
    intro descs fq d h
    cases m with
    | none => exact h
    | some g =>
      cases hv : g.commons.validate with
      | some e => simp only [regMetricsLoop, hv]; exact h
      | none =>
        simp only [regMetricsLoop, hv]
        by_cases hl : (descs.lookup (buildFQName pfx g.commons)).isSome = true
        · rw [if_pos hl]; exact ih descs fq d h
        · rw [if_neg hl]; exact ih _ fq d (lookup_append_some _ _ _ _ h)

/-- After the loop has consumed a valid metric, the descriptor map of the
final result resolves that metric's fully-qualified name, whatever comes
later in the list. -/
theorem regMetricsLoop_adds (pfx : String) (g : GMetric)
    (hg : g.commons.validate = none) (rest : List (Option GMetric)) :
    ∀ descs : List (String × PromDesc),
      (((regMetricsLoop pfx descs (some g :: rest)).1).lookup
        (buildFQName pfx g.commons)).isSome = true := by
  intro descs
  simp only [regMetricsLoop, hg]
  cases hl : descs.lookup (buildFQName pfx g.commons) with
  | some d =>
    rw [if_pos (by simp [hl])]
    rw [regMetricsLoop_mono pfx rest descs _ d hl]
    rfl
  | none =>
    rw [if_neg (by simp [hl])]
    rw [regMetricsLoop_mono pfx rest _ _
          { fqName := buildFQName pfx g.commons, help := g.commons.help,
            labelKeys := "instance_name" :: "device" :: g.labelKeys }
          (lookup_append_fresh _ _ _ hl)]
    rfl

/-- A run of valid metrics followed by a failing one: the loop returns an
error and the final descriptor map still resolves every valid metric that
preceded the failure. -/
theorem regMetricsLoop_err_keeps (pfx : String)
    (bad : Option GMetric) (rest : List (Option GMetric))
    (hbad : bad = none ∨ ∃ g, bad = some g ∧ (g.commons.validate).isSome = true) :
    ∀ pre : List GMetric, (∀ g ∈ pre, g.commons.validate = none) →
    ∀ descs : List (String × PromDesc),
      (((regMetricsLoop pfx descs (pre.map some ++ bad :: rest)).2).isSome = true)
      ∧ ∀ g ∈ pre,
          (((regMetricsLoop pfx descs (pre.map some ++ bad :: rest)).1).lookup
            (buildFQName pfx g.commons)).isSome = true := by
  intro pre
  induction pre with
  | nil =>
    intro _ descs
    refine ⟨?_, fun g hg => absurd hg (List.not_mem_nil g)⟩
    rcases hbad with rfl | ⟨g, rfl, hv⟩
    · rfl
    · cases hv' : g.commons.validate with
      | none => rw [hv'] at hv; exact Bool.noConfusion hv
      | some e => simp [regMetricsLoop, hv']
  | cons g0 t ih =>
    intro hpre descs
    have hg0 : g0.commons.validate = none := hpre g0 (List.mem_cons_self ..)
    have hpre' : ∀ g ∈ t, g.commons.validate = none :=
      fun g hg => hpre g (List.mem_cons_of_mem _ hg)
    simp only [List.map_cons, List.cons_append, regMetricsLoop, hg0]
    cases hl : descs.lookup (buildFQName pfx g0.commons) with
    | some d =>
      rw [if_pos (by simp [hl])]
      refine ⟨(ih hpre' descs).1, ?_⟩
      intro g hg
      rcases List.mem_cons.mp hg with rfl | hgt
      · rw [regMetricsLoop_mono pfx _ descs _ d hl]
        rfl
      · exact (ih hpre' descs).2 g hgt
    | none =>
      rw [if_neg (by simp [hl])]
      refine ⟨(ih hpre' _).1, ?_⟩
      intro g hg
      rcases List.mem_cons.mp hg with rfl | hgt
      · rw [regMetricsLoop_mono pfx _ _ _ _ (lookup_append_fresh _ _ _ hl)]
        rfl
      · exact (ih hpre' _).2 g hgt

/-! ## C4: duplicate fully-qualified names at registration -/

/-- C4 (counterexample): after s1 registered gm1, registering gm2 - which
builds the same fully-qualified name but carries different help text and
different label keys - by source s2 returns no error, and the original
descriptor of gm1 is kept untouched; registerSource never compares the
help or label keys of a duplicate. -/
theorem registerSource_duplicate_not_compared :
    ((pReg1.registerSource (some "s2") [some gm2]).2 = none)
  ∧ buildFQName "px" gm2.commons = buildFQName "px" gm1.commons
  ∧ (gm1.commons.help == gm2.commons.help) = false
  ∧ (gm1.labelKeys == gm2.labelKeys) = false
  ∧ ((pReg1.registerSource (some "s2") [some gm2]).1.descriptors.lookup
        (buildFQName "px" gm1.commons)
      = some { fqName := "px_plugin_n_counters", help := "h1",
               labelKeys := ["instance_name", "device", "a"] }) := by
  refine ⟨by decide, by decide, by decide, by decide, by decide⟩

/-- C4 (amended): when every metric of a registration call is non-nil and
passes commons validation, registerSource succeeds even if some of the
fully-qualified names are already registered - with identical or different
label keys and help alike - and every descriptor that was already present
is kept exactly as it was (first registration wins). -/
theorem registerSource_duplicates_tolerated (p : PromExporter) (s : String)
    (metrics : List (Option GMetric)) (hne : metrics.length ≠ 0)
    (h : ∀ m ∈ metrics, ∃ g, m = some g ∧ g.commons.validate = none) :
    ((p.registerSource (some s) metrics).2 = none)
  ∧ (∀ fq d, p.descriptors.lookup fq = some d →
      ((p.registerSource (some s) metrics).1.descriptors.lookup fq = some d)) := by
  have hok : ∀ (ms : List (Option GMetric)),
      (∀ m ∈ ms, ∃ g, m = some g ∧ g.commons.validate = none) →
      ∀ descs, ((regMetricsLoop p.metricPrefix descs ms).2 = none) := by
    intro ms
    induction ms with
    | nil => intro _ descs; rfl
    | cons m t ih =>
      intro hv descs
      obtain ⟨g, rfl, hg⟩ := hv m (List.mem_cons_self ..)
      simp only [regMetricsLoop, hg]
      by_cases hl : (descs.lookup (buildFQName p.metricPrefix g.commons)).isSome = true
      · rw [if_pos hl]; exact ih (fun m hm => hv m (List.mem_cons_of_mem _ hm)) descs
      · rw [if_neg hl]; exact ih (fun m hm => hv m (List.mem_cons_of_mem _ hm)) _
  rw [PromExporter.registerSource, if_neg hne]
  exact ⟨hok metrics h p.descriptors,
         fun fq d hd => regMetricsLoop_mono p.metricPrefix metrics p.descriptors fq d hd⟩

/-- Witness for tolerated duplicates at concrete inputs: re-registering
gm1 by a second source succeeds and keeps the existing descriptor. -/
theorem registerSource_duplicates_tolerated_witness :
    ((pReg1.registerSource (some "s3") [some gm1]).2 = none)
  ∧ ((pReg1.registerSource (some "s3") [some gm1]).1.descriptors.lookup
        "px_plugin_n_counters"
      = some { fqName := "px_plugin_n_counters", help := "h1",
               labelKeys := ["instance_name", "device", "a"] }) := by
  have h := registerSource_duplicates_tolerated pReg1 "s3" [some gm1]
    (by decide) (by intro m hm; exact ⟨gm1, by simpa using hm, by decide⟩)
  exact ⟨h.1, h.2 "px_plugin_n_counters" _ (by decide)⟩

/-! ## C10: registration is not atomic on error -/

/-- C10: when a registration call carries valid metrics followed by a
failing one (nil or invalid), registerSource returns an error, yet the
source is already in the source set and the descriptors of all metrics
preceding the failure are resolvable in the descriptor map. -/
theorem registerSource_not_atomic (p : PromExporter) (s : String)
    (pre : List GMetric) (bad : Option GMetric) (rest : List (Option GMetric))
    (hpre : ∀ g ∈ pre, g.commons.validate = none)
    (hbad : bad = none ∨ ∃ g, bad = some g ∧ (g.commons.validate).isSome = true) :
    (((p.registerSource (some s) (pre.map some ++ bad :: rest)).2).isSome = true)
  ∧ s ∈ (p.registerSource (some s) (pre.map some ++ bad :: rest)).1.metricSources
  ∧ ∀ g ∈ pre,
      (((p.registerSource (some s) (pre.map some ++ bad :: rest)).1.descriptors.lookup
        (buildFQName p.metricPrefix g.commons)).isSome = true) := by
  have hne : (pre.map some ++ bad :: rest).length ≠ 0 := by
    simp
  have hloop := regMetricsLoop_err_keeps p.metricPrefix bad rest hbad pre hpre p.descriptors
  rw [PromExporter.registerSource, if_neg hne]
  refine ⟨hloop.1, ?_, hloop.2⟩
  show s ∈ (if s ∈ p.metricSources then p.metricSources else p.metricSources ++ [s])
  by_cases hs : s ∈ p.metricSources
  · rw [if_pos hs]; exact hs
  · rw [if_neg hs]; simp

/-- Witness for non-atomic registration at concrete inputs: registering
gm1 followed by a nil metric fails, yet s1 is registered and the gm1
descriptor exists. -/
theorem registerSource_not_atomic_witness :
    (((pEmpty.registerSource (some "s1") [some gm1, none]).2).isSome = true)
  ∧ "s1" ∈ (pEmpty.registerSource (some "s1") [some gm1, none]).1.metricSources
  ∧ (((pEmpty.registerSource (some "s1") [some gm1, none]).1.descriptors.lookup
        (buildFQName "px" gm1.commons)).isSome = true) := by
  have h := registerSource_not_atomic pEmpty "s1" [gm1] none []
    (by intro g hg; rw [List.mem_singleton.mp hg]; decide) (Or.inl rfl)
  exact ⟨h.1, h.2.1, h.2.2 gm1 (List.mem_singleton.mpr rfl)⟩

/-! ## C7: per-sample filtering during a scrape -/

/-- C7 (counterexample to the if-and-only-if): gm2 passes commons
validation and its fully-qualified name resolves to the descriptor
registered by gm1, yet the gatherer drops it, because its label-value
count does not match that descriptor's label-key count and the
prometheus construction fails; the scrape continues over the other
samples. -/
theorem collect_drops_arity_mismatch :
    (gm2.commons.validate = none)
  ∧ ((pReg1.descriptors.lookup (buildFQName "px" gm2.commons)).isSome = true)
  ∧ (collectStep pReg1 (some gm2) = none)
  ∧ (pReg1.collect [some gm1, some gm2] = pReg1.collect [some gm1]) := by
  refine ⟨by decide, by decide, by decide, by decide⟩

/-- C7 (amended): a sample is forwarded to the scraper exactly when it
passes commons validation, its fully-qualified name resolves to a
registered descriptor, and the number of its label values plus the two
prepended labels equals the descriptor's label-key count; and dropping or
keeping one sample never affects how the surrounding samples of the same
scrape are processed. -/
theorem collect_forward_condition (p : PromExporter) (gm : GMetric)
    (pre post : List (Option GMetric)) :
    ((collectStep p (some gm)).isSome = true ↔
      gm.commons.validate = none ∧
      ∃ d, p.descriptors.lookup (buildFQName p.metricPrefix gm.commons) = some d ∧
        gm.labelValues.length + 2 = d.labelKeys.length)
  ∧ p.collect (pre ++ some gm :: post)
      = p.collect pre ++ (collectStep p (some gm)).toList ++ p.collect post := by
  constructor
  · cases hv : gm.commons.validate with
    | some e => simp [collectStep, hv]
    | none =>
      cases hl : p.descriptors.lookup (buildFQName p.metricPrefix gm.commons) with
      | none => simp [collectStep, hv, hl]
      | some d =>
        simp only [collectStep, hv, hl, newConstMetric]
        by_cases harr :
            (p.instanceName :: gm.commons.device :: gm.labelValues).length
              = d.labelKeys.length
        · rw [if_pos harr]
          simp only [Option.isSome_some, true_iff]
          refine ⟨by trivial, d, rfl, ?_⟩
          simp only [List.length_cons] at harr
          omega
        · rw [if_neg harr]
          refine iff_of_false (by simp) ?_
          rintro ⟨-, d', hd', hlen⟩
          rw [Option.some_inj] at hd'
          subst hd'
          apply harr
          simp only [List.length_cons]
          omega
  · rw [PromExporter.collect, PromExporter.collect, PromExporter.collect,
        List.filterMap_append, List.filterMap_cons]
    cases hc : collectStep p (some gm) with
    | none => simp
    | some pm => simp

/-- Witness for the forwarding condition at concrete inputs: gm1 is
forwarded (its arity matches the descriptor registered for it), and the
surrounding samples of the scrape are processed independently. -/
theorem collect_forward_condition_witness :
    (collectStep pReg1 (some gm1)).isSome = true
    ∧ pReg1.collect [some gm2, some gm1]
        = pReg1.collect [some gm2] ++ (collectStep pReg1 (some gm1)).toList := by
  have h := collect_forward_condition pReg1 gm1 [some gm2] []
  refine ⟨h.1.mpr ⟨by decide,
      { fqName := "px_plugin_n_counters", help := "h1",
        labelKeys := ["instance_name", "device", "a"] }, by decide, by decide⟩, ?_⟩
  have h2 := h.2
  simpa using h2

end GtExporter
